import Mathlib

/-!
# Shallow embedding of the rllm prompt-orchestration core

This file embeds, in Lean 4, the parts of the `rllm` crate that carry real
control-flow logic and proves the behavioural properties stated for them:

* `src/validated_llm.rs` — the validating-retry decorator `ValidatedLLM`
  (`chat`, `complete`);
* `src/evaluator/mod.rs` — `LLMEvaluator::evaluate_chat`;
* `src/builder.rs` — the `LLMBuilder` fields relevant to validation and the
  final validator-wrapping step of `build`;
* `src/backends/xai.rs` — the `CompletionProvider` implementation for `XAI`;
* the provider-registry builder (which lives in the crate's chain module,
  not included among the sources; it is modelled from the specification).

Effectful Rust signatures `fn(...) -> Result<T, RllmError>` are embedded as
Lean functions into `Except RllmError T`; a provider (Rust
`Box<dyn LLMProvider>`) is embedded as a record of its `chat` and `complete`
behaviours.  The retry loops of `ValidatedLLM` and the provider loop of
`evaluate_chat` are additionally instrumented with the sequence of arguments
passed to the inner provider, so that "how many inner calls occur, and with
which conversation" is a provable statement; the first component of each
instrumented result is the value the Rust function returns.
-/

set_option autoImplicit false

namespace Rllm

/-- Chat roles.  `src/chat.rs` is not among the included sources, but the
exhaustive match in `src/backends/xai.rs` (`ChatRole::User => "user",
ChatRole::Assistant => "assistant"`) shows `ChatRole` has exactly these two
variants. -/
inductive ChatRole where
  | user
  | assistant
deriving DecidableEq, Repr

/-- A chat message, `ChatMessage { role, content }` as used throughout the
sources. -/
structure ChatMessage where
  role : ChatRole
  content : String
deriving DecidableEq, Repr

/-- Errors of the crate.  `src/error.rs` is not among the included sources;
the variants are the ones constructed in the sources (`InvalidRequest`,
`AuthError`, `ProviderError`) plus the transport failure the spec's error
taxonomy names for network errors (`error_for_status`/serialization failures
reach the caller through a `From` conversion on `?`). -/
inductive RllmError where
  | InvalidRequest (msg : String)
  | AuthError (msg : String)
  | ProviderError (msg : String)
  | TransportError (msg : String)
deriving DecidableEq, Repr

/-- Modelled from the spec: `complete(request{prompt, generation params})`
(`src/completion.rs` is not among the included sources).  Generation
parameters are kept as an opaque key/value list; nothing proved here inspects
them. -/
structure CompletionRequest where
  prompt : String
  params : List (String × String)
deriving DecidableEq, Repr

/-- A completion response, `CompletionResponse { text }` as constructed in
`src/backends/xai.rs` and read (`response.text`) in `src/validated_llm.rs`. -/
structure CompletionResponse where
  text : String
deriving DecidableEq, Repr

/-- A provider (`Box<dyn LLMProvider>`), embedded as the record of its two
capabilities used by the orchestration layer; `embed` is not needed by any
property proved here. -/
structure Provider where
  chat : List ChatMessage → Except RllmError String
  complete : CompletionRequest → Except RllmError CompletionResponse

/-! ## The validating decorator (`src/validated_llm.rs`) -/

/-- Outcome of a decorated call: the `Ok`/`Err` the Rust function returns, or
the arithmetic underflow of `remaining_attempts -= 1` when the counter is
already zero (a panic in a debug build). -/
inductive VOutcome (α : Type) where
  | ok (a : α)
  | err (e : RllmError)
  | underflow
deriving DecidableEq, Repr

/-- The corrective message pushed by `ValidatedLLM::chat` after a rejection
(the Rust string literal uses a line continuation, so no space follows the
newline). -/
def correctiveMessage (reason : String) : ChatMessage :=
  { role := ChatRole.user
    content := "Your previous output was invalid because: " ++ reason ++
      "\nPlease try again and produce a valid response." }

/-- The error returned by both retry loops once attempts are exhausted:
`RllmError::InvalidRequest(format!("Validation error after max attempts: {}", err))`. -/
def validationFailure (reason : String) : RllmError :=
  RllmError.InvalidRequest ("Validation error after max attempts: " ++ reason)

/-- The loop of `ValidatedLLM::chat` (src/validated_llm.rs lines 48–82).
`remaining` is `remaining_attempts`, `msgs` is `local_messages`.  Each
iteration calls the inner provider, validates the response, returns the
response on acceptance, and on rejection decrements the counter (`0` at the
decrement means underflow), errors when the counter reaches zero, and
otherwise retries with the conversation extended by a corrective message.
The second component lists, in order, the conversations passed to the inner
provider. -/
def chatLoop (inner : List ChatMessage → Except RllmError String)
    (validator : String → Except String Unit) :
    Nat → List ChatMessage → VOutcome String × List (List ChatMessage)
  | remaining, msgs =>
    match inner msgs with
    | Except.error e => (VOutcome.err e, [msgs])
    | Except.ok response =>
      match validator response with
      | Except.ok _ => (VOutcome.ok response, [msgs])
      | Except.error reason =>
        match remaining with
        | 0 => (VOutcome.underflow, [msgs])
        | n + 1 =>
          if n = 0 then
            (VOutcome.err (validationFailure reason), [msgs])
          else
            let next := chatLoop inner validator n (msgs ++ [correctiveMessage reason])
            (next.1, msgs :: next.2)

/-- The loop of `ValidatedLLM::complete` (src/validated_llm.rs lines
89–113): identical control flow, but the request is never modified between
retries.  The second component lists the requests passed to the inner
provider. -/
def completeLoop (inner : CompletionRequest → Except RllmError CompletionResponse)
    (validator : String → Except String Unit) :
    Nat → CompletionRequest → VOutcome CompletionResponse × List CompletionRequest
  | remaining, req =>
    match inner req with
    | Except.error e => (VOutcome.err e, [req])
    | Except.ok response =>
      match validator response.text with
      | Except.ok _ => (VOutcome.ok response, [req])
      | Except.error reason =>
        match remaining with
        | 0 => (VOutcome.underflow, [req])
        | n + 1 =>
          if n = 0 then
            (VOutcome.err (validationFailure reason), [req])
          else
            let next := completeLoop inner validator n req
            (next.1, req :: next.2)

/-- `ValidatedLLM { inner, validator, attempts }`.  The validator is Rust's
`Fn(&str) -> Result<(), String>`. -/
structure ValidatedLLM where
  inner : Provider
  validator : String → Except String Unit
  attempts : Nat

/-- `ValidatedLLM::new`. -/
def ValidatedLLM.new (inner : Provider) (validator : String → Except String Unit)
    (attempts : Nat) : ValidatedLLM :=
  { inner := inner, validator := validator, attempts := attempts }

/-- Instrumented `ValidatedLLM::chat`: the returned value together with the
conversations sent to the inner provider. -/
def ValidatedLLM.chat (v : ValidatedLLM) (messages : List ChatMessage) :
    VOutcome String × List (List ChatMessage) :=
  chatLoop v.inner.chat v.validator v.attempts messages

/-- Instrumented `ValidatedLLM::complete`: the returned value together with
the requests sent to the inner provider. -/
def ValidatedLLM.complete (v : ValidatedLLM) (req : CompletionRequest) :
    VOutcome CompletionResponse × List CompletionRequest :=
  completeLoop v.inner.complete v.validator v.attempts req

/-! ## The evaluator (`src/evaluator/mod.rs`) -/

/-- Result of evaluating one provider's response: `EvalResult { text, score }`. -/
structure EvalResult where
  text : String
  score : Float
deriving Repr

/-- The score assigned to a response in `evaluate_chat`: the configured
scoring function applied to the response, or `0.0` when none is configured
(the `if let Some(ref func) ... else 0.0` in the loop body). -/
def scoreOf (scoring_fn : Option (String → Float)) (response : String) : Float :=
  match scoring_fn with
  | some f => f response
  | none => 0.0

/-- The provider loop of `LLMEvaluator::evaluate_chat` (src/evaluator/mod.rs
lines 50–65): for each provider in order, call `chat` (propagating a failure
with `?`), score the response, and push `EvalResult { text, score }`.  The
second component counts the providers actually invoked. -/
def evalChatGo (scoring_fn : Option (String → Float)) (messages : List ChatMessage) :
    List Provider → Except RllmError (List EvalResult) × Nat
  | [] => (Except.ok [], 0)
  | llm :: rest =>
    match llm.chat messages with
    | Except.error e => (Except.error e, 1)
    | Except.ok response =>
      let score := scoreOf scoring_fn response
      let next := evalChatGo scoring_fn messages rest
      (next.1.map (fun results => { text := response, score := score } :: results),
       next.2 + 1)

/-- `LLMEvaluator { llms, scoring_fn }`. -/
structure LLMEvaluator where
  llms : List Provider
  scoring_fn : Option (String → Float)

/-- `LLMEvaluator::new`: no scoring function configured. -/
def LLMEvaluator.new (llms : List Provider) : LLMEvaluator :=
  { llms := llms, scoring_fn := none }

/-- `LLMEvaluator::scoring`. -/
def LLMEvaluator.scoring (e : LLMEvaluator) (f : String → Float) : LLMEvaluator :=
  { e with scoring_fn := some f }

/-- Instrumented `LLMEvaluator::evaluate_chat`: the returned value together
with the number of providers invoked. -/
def LLMEvaluator.evaluate_chat (e : LLMEvaluator) (messages : List ChatMessage) :
    Except RllmError (List EvalResult) × Nat :=
  evalChatGo e.scoring_fn messages e.llms

/-! ## The builder (`src/builder.rs`), restricted to what validation needs -/

/-- `LLMBackend`. -/
inductive LLMBackend where
  | OpenAI
  | Anthropic
  | Ollama
  | DeepSeek
  | XAIBackend
  | Phind
deriving DecidableEq, Repr

/-- `LLMBuilder` with its `#[derive(Default)]` field values: every `Option`
field defaults to `None` and `validator_attempts: usize` defaults to `0`.
Numeric fields use `Nat`/`Float` for the Rust unsigned/floating types. -/
structure LLMBuilder where
  backend : Option LLMBackend := none
  api_key : Option String := none
  base_url : Option String := none
  model : Option String := none
  max_tokens : Option Nat := none
  temperature : Option Float := none
  system : Option String := none
  timeout_seconds : Option Nat := none
  stream : Option Bool := none
  top_p : Option Float := none
  top_k : Option Nat := none
  embedding_encoding_format : Option String := none
  embedding_dimensions : Option Nat := none
  validator : Option (String → Except String Unit) := none
  validator_attempts : Nat := 0

/-- `LLMBuilder::new`, i.e. `Self::default()`. -/
def LLMBuilder.new : LLMBuilder := {}

/-- The `LLMBuilder::validator` setter (named apart from the field, which
Rust allows and Lean does not). -/
def LLMBuilder.set_validator (b : LLMBuilder) (f : String → Except String Unit) :
    LLMBuilder :=
  { b with validator := some f }

/-- The `LLMBuilder::validator_attempts` setter. -/
def LLMBuilder.set_validator_attempts (b : LLMBuilder) (attempts : Nat) : LLMBuilder :=
  { b with validator_attempts := attempts }

/-- The final step of `LLMBuilder::build` (src/builder.rs lines 337–346):
given the backend provider the match built, wrap it in a `ValidatedLLM`
carrying `self.validator_attempts` when a validator is set.  The backend
construction itself is pure HTTP-client plumbing and is abstracted as the
`provider` argument; the result distinguishes the wrapped and unwrapped
cases so the wrapper's attempt budget is observable. -/
def LLMBuilder.build_wrap (b : LLMBuilder) (provider : Provider) :
    ValidatedLLM ⊕ Provider :=
  match b.validator with
  | some f => Sum.inl (ValidatedLLM.new provider f b.validator_attempts)
  | none => Sum.inr provider

/-! ## The XAI backend (`src/backends/xai.rs`) -/

/-- The `XAI` client struct (src/backends/xai.rs lines 18–29), minus the
`reqwest` HTTP client handle, which carries no observable state. -/
structure XAI where
  api_key : String
  model : String
  max_tokens : Option Nat
  temperature : Option Float
  system : Option String
  timeout_seconds : Option Nat
  stream : Option Bool
  top_p : Option Float
  top_k : Option Nat

/-- `CompletionProvider for XAI` (src/backends/xai.rs lines 164–170): the
request is ignored (`_req`) and a fixed successful response is returned. -/
def XAI.complete (_x : XAI) (_req : CompletionRequest) :
    Except RllmError CompletionResponse :=
  Except.ok { text := "X.AI completion not implemented." }

/-! ## The provider registry builder (spec-modelled) -/

/-- The registry's configuration error.  Modelled from the spec: `build()`
"rejects duplicate ids with a ConfigurationError". -/
inductive ConfigurationError where
  | duplicate_id
deriving DecidableEq, Repr

/-- Modelled from the spec: the frozen registry, an immutable id → provider
association produced only by a successful `build()` (`LLMRegistry` in the
crate's chain module, which is not among the included sources). -/
structure LLMRegistry where
  entries : List (String × Provider)

/-- Modelled from the spec: the registry builder (`LLMRegistryBuilder` in
the crate's chain module, not among the included sources); `register(id,
provider)` "accumulates a (id, provider) pair into a builder". -/
structure LLMRegistryBuilder where
  entries : List (String × Provider)

/-- Modelled from the spec: an empty builder. -/
def LLMRegistryBuilder.new : LLMRegistryBuilder := { entries := [] }

/-- Modelled from the spec: `register` appends the pair to the accumulated
list. -/
def LLMRegistryBuilder.register (b : LLMRegistryBuilder) (id : String)
    (p : Provider) : LLMRegistryBuilder :=
  { entries := b.entries ++ [(id, p)] }

/-- Modelled from the spec: `build()` "freezes the accumulated pairs into an
immutable lookup structure and returns it", and "reject[s] duplicate ids
with a ConfigurationError at build() time (prevents silent shadowing)". -/
def LLMRegistryBuilder.build (b : LLMRegistryBuilder) :
    Except ConfigurationError LLMRegistry :=
  if (b.entries.map Prod.fst).Nodup then
    Except.ok { entries := b.entries }
  else
    Except.error ConfigurationError.duplicate_id

/-! ## Specification devices and fixtures for the proofs -/

/-- Closed form for the conversation seen by the (i+1)-st inner call when the
inner provider answers with `resp` and the validator rejects with `rej`. -/
def conversationAt (resp : List ChatMessage → String) (rej : String → String)
    (msgs : List ChatMessage) : Nat → List ChatMessage
  | 0 => msgs
  | i + 1 =>
    conversationAt resp rej msgs i ++
      [correctiveMessage (rej (resp (conversationAt resp rej msgs i)))]

/-- Sample providers and decorators used by the concrete witnesses. -/
def sampleOk : Provider :=
  { chat := fun _ => Except.ok "fine", complete := fun _ => Except.ok { text := "fine" } }

def sampleOkB : Provider :=
  { chat := fun _ => Except.ok "fine2", complete := fun _ => Except.ok { text := "fine2" } }

def sampleBad : Provider :=
  { chat := fun _ => Except.error (RllmError.ProviderError "boom")
    complete := fun _ => Except.error (RllmError.ProviderError "boom") }

def sampleReq : CompletionRequest := { prompt := "p", params := [] }

def rejectingV : ValidatedLLM :=
  ValidatedLLM.new sampleOk (fun _ => Except.error "bad") 2

def acceptingV : ValidatedLLM :=
  ValidatedLLM.new sampleOk (fun _ => Except.ok ()) 5

def zeroAttemptsV : ValidatedLLM :=
  ValidatedLLM.new sampleOk (fun _ => Except.error "bad") 0

/-! ## Properties of the retry loops -/

theorem conversationAt_zero (resp : List ChatMessage → String) (rej : String → String)
    (msgs : List ChatMessage) : conversationAt resp rej msgs 0 = msgs := rfl

theorem conversationAt_succ (resp : List ChatMessage → String) (rej : String → String)
    (msgs : List ChatMessage) (i : Nat) :
    conversationAt resp rej msgs (i + 1)
      = conversationAt resp rej msgs i ++
          [correctiveMessage (rej (resp (conversationAt resp rej msgs i)))] := rfl

theorem conversationAt_shift (resp : List ChatMessage → String) (rej : String → String)
    (msgs : List ChatMessage) (i : Nat) :
    conversationAt resp rej (msgs ++ [correctiveMessage (rej (resp msgs))]) i
      = conversationAt resp rej msgs (i + 1) := by
  induction i with
  | zero => rfl
  | succ i ih => simp [conversationAt_succ, ih]

theorem chatLoop_rejectAll (inner : List ChatMessage → Except RllmError String)
    (validator : String → Except String Unit)
    (resp : List ChatMessage → String) (rej : String → String)
    (hresp : ∀ m, inner m = Except.ok (resp m))
    (hrej : ∀ s, validator s = Except.error (rej s)) :
    ∀ (n : Nat) (msgs : List ChatMessage),
      chatLoop inner validator (n + 1) msgs
        = (VOutcome.err (validationFailure (rej (resp (conversationAt resp rej msgs n)))),
           (List.range (n + 1)).map (conversationAt resp rej msgs)) := by
  intro n
  induction n with
  | zero =>
    intro msgs
    simp [chatLoop, hresp, hrej, conversationAt_zero, List.range_succ]
  | succ m ih =>
    intro msgs
    have hmap : List.map
        (conversationAt resp rej (msgs ++ [correctiveMessage (rej (resp msgs))]))
        (List.range (m + 1))
        = List.map (fun i => conversationAt resp rej msgs (i + 1)) (List.range (m + 1)) :=
      List.map_congr_left (fun a _ => conversationAt_shift resp rej msgs a)
    rw [chatLoop.eq_def]
    simp only [hresp, hrej, if_neg (Nat.succ_ne_zero m)]
    rw [ih, hmap, conversationAt_shift, List.range_succ_eq_map (m + 1)]
    simp [conversationAt_zero, List.map_map, Function.comp]

theorem completeLoop_rejectAll (inner : CompletionRequest → Except RllmError CompletionResponse)
    (validator : String → Except String Unit) (req : CompletionRequest)
    (cresp : CompletionResponse) (reason : String)
    (hc : inner req = Except.ok cresp)
    (hv : validator cresp.text = Except.error reason) :
    ∀ n : Nat,
      completeLoop inner validator (n + 1) req
        = (VOutcome.err (validationFailure reason), List.replicate (n + 1) req) := by
  intro n
  induction n with
  | zero => simp [completeLoop, hc, hv]
  | succ m ih =>
    rw [completeLoop.eq_def]
    simp only [hc, hv, if_neg (Nat.succ_ne_zero m)]
    rw [ih]
    simp [List.replicate_succ]

/-- The first inner call of the chat loop always receives the conversation the
loop was entered with. -/
theorem chatLoop_trace_first (inner : List ChatMessage → Except RllmError String)
    (validator : String → Except String Unit) (remaining : Nat) (msgs : List ChatMessage) :
    ∃ rest, (chatLoop inner validator remaining msgs).2 = msgs :: rest := by
  rcases h1 : inner msgs with e | response
  · exact ⟨[], by rw [chatLoop.eq_def]; simp [h1]⟩
  · rcases h2 : validator response with reason | u
    · match remaining with
      | 0 => exact ⟨[], by rw [chatLoop.eq_def]; simp [h1, h2]⟩
      | n + 1 =>
        by_cases hn : n = 0
        · subst hn
          exact ⟨[], by rw [chatLoop.eq_def]; simp [h1, h2]⟩
        · exact ⟨(chatLoop inner validator n (msgs ++ [correctiveMessage reason])).2,
            by rw [chatLoop.eq_def]; simp [h1, h2, hn]⟩
    · exact ⟨[], by rw [chatLoop.eq_def]; simp [h1, h2]⟩

/-- Consecutive entries of the chat-loop trace: a further inner call happens
only after a successful inner response that the validator rejected, and its
conversation is the previous one extended by exactly the corrective message
for that rejection. -/
theorem chatLoop_trace_consecutive (inner : List ChatMessage → Except RllmError String)
    (validator : String → Except String Unit) :
    ∀ (remaining : Nat) (msgs : List ChatMessage) (i : Nat) (c c' : List ChatMessage),
      ((chatLoop inner validator remaining msgs).2)[i]? = some c →
      ((chatLoop inner validator remaining msgs).2)[i + 1]? = some c' →
      ∃ s r, inner c = Except.ok s ∧ validator s = Except.error r ∧
        c' = c ++ [correctiveMessage r] := by
  intro remaining
  induction remaining with
  | zero =>
    intro msgs i c c' h h'
    rw [chatLoop.eq_def] at h h'
    rcases h1 : inner msgs with e | response <;> simp only [h1] at h h'
    · simp at h'
    · rcases h2 : validator response with reason | u <;> simp only [h2] at h h'
      · simp at h'
      · simp at h'
  | succ n ih =>
    intro msgs i c c' h h'
    rw [chatLoop.eq_def] at h h'
    rcases h1 : inner msgs with e | response <;> simp only [h1] at h h'
    · simp at h'
    · rcases h2 : validator response with reason | u <;> simp only [h2] at h h'
      · by_cases hn : n = 0
        · subst hn; simp at h'
        · simp only [if_neg hn] at h h'
          match i with
          | 0 =>
            simp only [List.getElem?_cons_zero, Option.some.injEq] at h
            obtain ⟨rest, hrest⟩ :=
              chatLoop_trace_first inner validator n (msgs ++ [correctiveMessage reason])
            simp only [List.getElem?_cons_succ, hrest, List.getElem?_cons_zero,
              Option.some.injEq] at h'
            subst h
            subst h'
            exact ⟨response, reason, h1, h2, rfl⟩
          | j + 1 =>
            simp only [List.getElem?_cons_succ] at h h'
            exact ih (msgs ++ [correctiveMessage reason]) j c c' h h'
      · simp at h'

/-- Every entry of the chat-loop trace is the original conversation followed
by some corrective messages, as many as there were earlier calls. -/
theorem chatLoop_trace_entries (inner : List ChatMessage → Except RllmError String)
    (validator : String → Except String Unit) :
    ∀ (remaining : Nat) (msgs : List ChatMessage) (i : Nat) (c : List ChatMessage),
      ((chatLoop inner validator remaining msgs).2)[i]? = some c →
      ∃ cs, c = msgs ++ cs ∧ cs.length = i ∧
        ∀ m ∈ cs, ∃ r, m = correctiveMessage r := by
  intro remaining
  induction remaining with
  | zero =>
    intro msgs i c h
    rw [chatLoop.eq_def] at h
    rcases h1 : inner msgs with e | response <;> simp only [h1] at h
    · match i with
      | 0 => simp at h; exact ⟨[], by simp [← h]⟩
      | j + 1 => simp at h
    · rcases h2 : validator response with reason | u <;> simp only [h2] at h
      · match i with
        | 0 => simp at h; exact ⟨[], by simp [← h]⟩
        | j + 1 => simp at h
      · match i with
        | 0 => simp at h; exact ⟨[], by simp [← h]⟩
        | j + 1 => simp at h
  | succ n ih =>
    intro msgs i c h
    rw [chatLoop.eq_def] at h
    rcases h1 : inner msgs with e | response <;> simp only [h1] at h
    · match i with
      | 0 => simp at h; exact ⟨[], by simp [← h]⟩
      | j + 1 => simp at h
    · rcases h2 : validator response with reason | u <;> simp only [h2] at h
      · by_cases hn : n = 0
        · subst hn
          match i with
          | 0 => simp at h; exact ⟨[], by simp [← h]⟩
          | j + 1 => simp at h
        · simp only [if_neg hn] at h
          match i with
          | 0 =>
            simp only [List.getElem?_cons_zero, Option.some.injEq] at h
            exact ⟨[], by simp [← h]⟩
          | j + 1 =>
            simp only [List.getElem?_cons_succ] at h
            obtain ⟨cs, hc, hlen, hmem⟩ := ih (msgs ++ [correctiveMessage reason]) j c h
            refine ⟨correctiveMessage reason :: cs, by simp [hc], by simp [hlen], ?_⟩
            intro m hm
            rcases List.mem_cons.mp hm with hm | hm
            · exact ⟨reason, hm⟩
            · exact hmem m hm
      · match i with
        | 0 => simp at h; exact ⟨[], by simp [← h]⟩
        | j + 1 => simp at h

/-- With a positive attempt budget the chat loop makes between 1 and
`budget` inner calls and returns either an accepted response or an error —
never the underflow outcome. -/
theorem chatLoop_bounds (inner : List ChatMessage → Except RllmError String)
    (validator : String → Except String Unit) :
    ∀ (n : Nat) (msgs : List ChatMessage),
      1 ≤ (chatLoop inner validator (n + 1) msgs).2.length ∧
      (chatLoop inner validator (n + 1) msgs).2.length ≤ n + 1 ∧
      ((∃ s, (chatLoop inner validator (n + 1) msgs).1 = VOutcome.ok s ∧
          validator s = Except.ok ()) ∨
       (∃ e, (chatLoop inner validator (n + 1) msgs).1 = VOutcome.err e)) := by
  intro n
  induction n with
  | zero =>
    intro msgs
    rw [chatLoop.eq_def]
    rcases h1 : inner msgs with e | response <;> simp only [h1]
    · exact ⟨by simp, by simp, Or.inr ⟨e, rfl⟩⟩
    · rcases h2 : validator response with reason | u <;> simp only [h2]
      · exact ⟨by simp, by simp, Or.inr ⟨validationFailure reason, rfl⟩⟩
      · cases u
        exact ⟨by simp, by simp, Or.inl ⟨response, rfl, h2⟩⟩
  | succ m ih =>
    intro msgs
    rw [chatLoop.eq_def]
    rcases h1 : inner msgs with e | response <;> simp only [h1]
    · exact ⟨by simp, by simp, Or.inr ⟨e, rfl⟩⟩
    · rcases h2 : validator response with reason | u <;> simp only [h2]
      · simp only [if_neg (Nat.succ_ne_zero m)]
        obtain ⟨hlo, hhi, hout⟩ := ih (msgs ++ [correctiveMessage reason])
        exact ⟨by simp, by simpa using Nat.succ_le_succ hhi, hout⟩
      · cases u
        exact ⟨by simp, by simp, Or.inl ⟨response, rfl, h2⟩⟩

/-- Completion-side analogue of `chatLoop_bounds`. -/
theorem completeLoop_bounds (inner : CompletionRequest → Except RllmError CompletionResponse)
    (validator : String → Except String Unit) :
    ∀ (n : Nat) (req : CompletionRequest),
      1 ≤ (completeLoop inner validator (n + 1) req).2.length ∧
      (completeLoop inner validator (n + 1) req).2.length ≤ n + 1 ∧
      ((∃ s, (completeLoop inner validator (n + 1) req).1 = VOutcome.ok s ∧
          validator s.text = Except.ok ()) ∨
       (∃ e, (completeLoop inner validator (n + 1) req).1 = VOutcome.err e)) := by
  intro n
  induction n with
  | zero =>
    intro req
    rw [completeLoop.eq_def]
    rcases h1 : inner req with e | response <;> simp only [h1]
    · exact ⟨by simp, by simp, Or.inr ⟨e, rfl⟩⟩
    · rcases h2 : validator response.text with reason | u <;> simp only [h2]
      · exact ⟨by simp, by simp, Or.inr ⟨validationFailure reason, rfl⟩⟩
      · cases u
        exact ⟨by simp, by simp, Or.inl ⟨response, rfl, h2⟩⟩
  | succ m ih =>
    intro req
    rw [completeLoop.eq_def]
    rcases h1 : inner req with e | response <;> simp only [h1]
    · exact ⟨by simp, by simp, Or.inr ⟨e, rfl⟩⟩
    · rcases h2 : validator response.text with reason | u <;> simp only [h2]
      · simp only [if_neg (Nat.succ_ne_zero m)]
        obtain ⟨hlo, hhi, hout⟩ := ih req
        exact ⟨by simp, by simpa using Nat.succ_le_succ hhi, hout⟩
      · cases u
        exact ⟨by simp, by simp, Or.inl ⟨response, rfl, h2⟩⟩

/-- Every request the completion loop sends to the inner provider is the
original request, unmodified. -/
theorem completeLoop_trace_const (inner : CompletionRequest → Except RllmError CompletionResponse)
    (validator : String → Except String Unit) :
    ∀ (remaining : Nat) (req q : CompletionRequest),
      q ∈ (completeLoop inner validator remaining req).2 → q = req := by
  intro remaining
  induction remaining with
  | zero =>
    intro req q hq
    rw [completeLoop.eq_def] at hq
    rcases h1 : inner req with e | response <;> simp only [h1] at hq
    · simpa using hq
    · rcases h2 : validator response.text with reason | u <;> simp only [h2] at hq <;>
        simpa using hq
  | succ n ih =>
    intro req q hq
    rw [completeLoop.eq_def] at hq
    rcases h1 : inner req with e | response <;> simp only [h1] at hq
    · simpa using hq
    · rcases h2 : validator response.text with reason | u <;> simp only [h2] at hq
      · by_cases hn : n = 0
        · subst hn; simpa using hq
        · simp only [if_neg hn, List.mem_cons] at hq
          rcases hq with hq | hq
          · exact hq
          · exact ih req q hq
      · simpa using hq

/-- With a zero attempt budget, one rejection drives the chat loop into the
underflowing decrement. -/
theorem chatLoop_zero_underflow (inner : List ChatMessage → Except RllmError String)
    (validator : String → Except String Unit) (msgs : List ChatMessage)
    (s r : String) (h1 : inner msgs = Except.ok s) (h2 : validator s = Except.error r) :
    chatLoop inner validator 0 msgs = (VOutcome.underflow, [msgs]) := by
  rw [chatLoop.eq_def]
  simp [h1, h2]

/-- Completion-side analogue of `chatLoop_zero_underflow`. -/
theorem completeLoop_zero_underflow (inner : CompletionRequest → Except RllmError CompletionResponse)
    (validator : String → Except String Unit) (req : CompletionRequest)
    (s : CompletionResponse) (r : String)
    (h1 : inner req = Except.ok s) (h2 : validator s.text = Except.error r) :
    completeLoop inner validator 0 req = (VOutcome.underflow, [req]) := by
  rw [completeLoop.eq_def]
  simp [h1, h2]

/-- `evaluate_chat`'s provider loop on providers that all succeed: one result
per provider, in order, carrying the provider's response and its score. -/
theorem evalChatGo_ok (sf : Option (String → Float)) (msgs : List ChatMessage) :
    ∀ pairs : List (Provider × String),
      (∀ p ∈ pairs, p.1.chat msgs = Except.ok p.2) →
      evalChatGo sf msgs (pairs.map Prod.fst)
        = (Except.ok (pairs.map fun p => { text := p.2, score := scoreOf sf p.2 }),
           pairs.length) := by
  intro pairs
  induction pairs with
  | nil => intro _; simp [evalChatGo]
  | cons p rest ih =>
    intro h
    have hp : p.1.chat msgs = Except.ok p.2 := h p (List.mem_cons_self p rest)
    have hrest := ih (fun q hq => h q (List.mem_cons_of_mem p hq))
    simp only [List.map_cons, evalChatGo, hp, hrest, List.length_cons]
    rfl

/-- `evaluate_chat`'s provider loop is fail-fast: the first failing provider's
error is returned as-is and no later provider is invoked. -/
theorem evalChatGo_failfast (sf : Option (String → Float)) (msgs : List ChatMessage)
    (e : RllmError) :
    ∀ (pairs : List (Provider × String)) (bad : Provider) (post : List Provider),
      (∀ p ∈ pairs, p.1.chat msgs = Except.ok p.2) →
      bad.chat msgs = Except.error e →
      evalChatGo sf msgs (pairs.map Prod.fst ++ bad :: post)
        = (Except.error e, pairs.length + 1) := by
  intro pairs
  induction pairs with
  | nil =>
    intro bad post _ hbad
    simp [evalChatGo, hbad]
  | cons p rest ih =>
    intro bad post h hbad
    have hp : p.1.chat msgs = Except.ok p.2 := h p (List.mem_cons_self p rest)
    have hrest := ih bad post (fun q hq => h q (List.mem_cons_of_mem p hq)) hbad
    simp only [List.map_cons, List.cons_append, evalChatGo, hp, List.append_eq, hrest,
      List.length_cons]
    rfl

/-- Claim C1: with an inner provider whose calls all succeed and a validator
that rejects every response, a decorated chat (resp. complete) call with
`max_attempts = k ≥ 1` invokes the inner provider exactly `k` times and then
returns the `InvalidRequest` validation error carrying the last rejection
reason. -/
theorem validated_exhausts_attempts (v : ValidatedLLM)
    (msgs : List ChatMessage) (req : CompletionRequest)
    (resp : List ChatMessage → String) (rej : String → String)
    (cresp : CompletionResponse)
    (hchat : ∀ m, v.inner.chat m = Except.ok (resp m))
    (hcomp : v.inner.complete req = Except.ok cresp)
    (hrej : ∀ s, v.validator s = Except.error (rej s))
    (k : Nat) (hk : v.attempts = k) (hk1 : 1 ≤ k) :
    ((v.chat msgs).2.length = k ∧
      (∃ last, (v.chat msgs).2.getLast? = some last ∧
        (v.chat msgs).1 = VOutcome.err (validationFailure (rej (resp last))))) ∧
    ((v.complete req).2.length = k ∧
      (v.complete req).1 = VOutcome.err (validationFailure (rej cresp.text))) := by
  obtain ⟨n, rfl⟩ : ∃ n, k = n + 1 := ⟨k - 1, (Nat.succ_pred_eq_of_pos hk1).symm⟩
  have hc : v.chat msgs = chatLoop v.inner.chat v.validator (n + 1) msgs := by
    rw [ValidatedLLM.chat, hk]
  have hq : v.complete req = completeLoop v.inner.complete v.validator (n + 1) req := by
    rw [ValidatedLLM.complete, hk]
  rw [hc, hq, chatLoop_rejectAll v.inner.chat v.validator resp rej hchat hrej n msgs,
    completeLoop_rejectAll v.inner.complete v.validator req cresp (rej cresp.text) hcomp
      (hrej cresp.text) n]
  refine ⟨⟨by simp, conversationAt resp rej msgs n, ?_, rfl⟩, by simp, rfl⟩
  rw [List.range_succ, List.map_append]
  simp

theorem validated_exhausts_attempts_witness :
    (((rejectingV.chat []).2.length = 2 ∧
      (∃ last, (rejectingV.chat []).2.getLast? = some last ∧
        (rejectingV.chat []).1 = VOutcome.err (validationFailure "bad"))) ∧
     ((rejectingV.complete sampleReq).2.length = 2 ∧
      (rejectingV.complete sampleReq).1 = VOutcome.err (validationFailure "bad"))) :=
  validated_exhausts_attempts rejectingV [] sampleReq (fun _ => "fine") (fun _ => "bad")
    { text := "fine" } (fun _ => rfl) rfl (fun _ => rfl) 2 rfl (by decide)

/-- Claim C2: whenever the decorated chat makes a further inner call, the
conversation it sends is the previous one extended by exactly one User-role
corrective message stating the rejection reason and asking for a corrected
retry; hence the i-th inner call sees the caller's conversation plus i-1
corrective messages.  In completion mode every retry re-sends the identical
request. -/
theorem validated_retry_feedback (v : ValidatedLLM) (msgs : List ChatMessage)
    (req : CompletionRequest) :
    (∀ (i : Nat) (c c' : List ChatMessage),
       ((v.chat msgs).2)[i]? = some c → ((v.chat msgs).2)[i + 1]? = some c' →
       ∃ s r, v.inner.chat c = Except.ok s ∧ v.validator s = Except.error r ∧
         c' = c ++ [correctiveMessage r] ∧
         (correctiveMessage r).role = ChatRole.user ∧
         (correctiveMessage r).content
           = "Your previous output was invalid because: " ++ r ++
             "\nPlease try again and produce a valid response.") ∧
    (∀ (i : Nat) (c : List ChatMessage), ((v.chat msgs).2)[i]? = some c →
       ∃ cs, c = msgs ++ cs ∧ cs.length = i ∧
         ∀ m ∈ cs, ∃ r, m = correctiveMessage r) ∧
    (∀ q ∈ (v.complete req).2, q = req) := by
  refine ⟨?_, ?_, ?_⟩
  · intro i c c' h h'
    obtain ⟨s, r, hs, hr, hc⟩ :=
      chatLoop_trace_consecutive v.inner.chat v.validator v.attempts msgs i c c' h h'
    exact ⟨s, r, hs, hr, hc, rfl, rfl⟩
  · intro i c h
    exact chatLoop_trace_entries v.inner.chat v.validator v.attempts msgs i c h
  · intro q hq
    exact completeLoop_trace_const v.inner.complete v.validator v.attempts req q hq

theorem validated_retry_feedback_witness :
    (∃ s r, rejectingV.inner.chat [] = Except.ok s ∧
       rejectingV.validator s = Except.error r ∧
       [correctiveMessage "bad"] = [] ++ [correctiveMessage r] ∧
       (correctiveMessage r).role = ChatRole.user ∧
       (correctiveMessage r).content
         = "Your previous output was invalid because: " ++ r ++
           "\nPlease try again and produce a valid response.") ∧
    (∃ cs, ([] : List ChatMessage) = [] ++ cs ∧ cs.length = 0 ∧
       ∀ m ∈ cs, ∃ r, m = correctiveMessage r) ∧
    sampleReq = sampleReq :=
  ⟨(validated_retry_feedback rejectingV [] sampleReq).1 0 [] [correctiveMessage "bad"]
      rfl rfl,
   (validated_retry_feedback rejectingV [] sampleReq).2.1 0 [] rfl,
   (validated_retry_feedback rejectingV [] sampleReq).2.2 sampleReq (by decide)⟩

/-- Claim C3: the attempts counter never underflows when the decorator is
built with `attempts ≥ 1`; but `LLMBuilder` wraps with `attempts = 0` by
default when a validator is set and `validator_attempts` is never called, and
a decorator with `attempts = 0` hits the underflowing `remaining_attempts -= 1`
on the first rejection instead of returning a validation error. -/
theorem validated_attempts_underflow :
    (∀ (v : ValidatedLLM) (msgs : List ChatMessage), 1 ≤ v.attempts →
       (v.chat msgs).1 ≠ VOutcome.underflow) ∧
    (∀ (v : ValidatedLLM) (req : CompletionRequest), 1 ≤ v.attempts →
       (v.complete req).1 ≠ VOutcome.underflow) ∧
    (∀ (f : String → Except String Unit) (p : Provider),
       (LLMBuilder.new.set_validator f).build_wrap p
         = Sum.inl (ValidatedLLM.new p f 0)) ∧
    (∀ (v : ValidatedLLM) (msgs : List ChatMessage) (s r : String),
       v.attempts = 0 → v.inner.chat msgs = Except.ok s →
       v.validator s = Except.error r → (v.chat msgs).1 = VOutcome.underflow) ∧
    (∀ (v : ValidatedLLM) (req : CompletionRequest) (s : CompletionResponse) (r : String),
       v.attempts = 0 → v.inner.complete req = Except.ok s →
       v.validator s.text = Except.error r → (v.complete req).1 = VOutcome.underflow) := by
  refine ⟨?_, ?_, fun f p => rfl, ?_, ?_⟩
  · intro v msgs h1
    obtain ⟨n, hn⟩ : ∃ n, v.attempts = n + 1 :=
      ⟨v.attempts - 1, (Nat.succ_pred_eq_of_pos h1).symm⟩
    rw [ValidatedLLM.chat, hn]
    rcases (chatLoop_bounds v.inner.chat v.validator n msgs).2.2 with ⟨s, hs, _⟩ | ⟨e, he⟩
    · rw [hs]; intro hcon; cases hcon
    · rw [he]; intro hcon; cases hcon
  · intro v req h1
    obtain ⟨n, hn⟩ : ∃ n, v.attempts = n + 1 :=
      ⟨v.attempts - 1, (Nat.succ_pred_eq_of_pos h1).symm⟩
    rw [ValidatedLLM.complete, hn]
    rcases (completeLoop_bounds v.inner.complete v.validator n req).2.2 with ⟨s, hs, _⟩ | ⟨e, he⟩
    · rw [hs]; intro hcon; cases hcon
    · rw [he]; intro hcon; cases hcon
  · intro v msgs s r h0 h1 h2
    rw [ValidatedLLM.chat, h0, chatLoop_zero_underflow v.inner.chat v.validator msgs s r h1 h2]
  · intro v req s r h0 h1 h2
    rw [ValidatedLLM.complete, h0,
      completeLoop_zero_underflow v.inner.complete v.validator req s r h1 h2]

theorem validated_attempts_underflow_witness :
    ((rejectingV.chat []).1 ≠ VOutcome.underflow) ∧
    ((rejectingV.complete sampleReq).1 ≠ VOutcome.underflow) ∧
    ((LLMBuilder.new.set_validator (fun _ => Except.error "bad")).build_wrap sampleOk
       = Sum.inl (ValidatedLLM.new sampleOk (fun _ => Except.error "bad") 0)) ∧
    ((zeroAttemptsV.chat []).1 = VOutcome.underflow) ∧
    ((zeroAttemptsV.complete sampleReq).1 = VOutcome.underflow) :=
  ⟨validated_attempts_underflow.1 rejectingV [] (by decide),
   validated_attempts_underflow.2.1 rejectingV sampleReq (by decide),
   validated_attempts_underflow.2.2.1 (fun _ => Except.error "bad") sampleOk,
   validated_attempts_underflow.2.2.2.1 zeroAttemptsV [] "fine" "bad" rfl rfl rfl,
   validated_attempts_underflow.2.2.2.2 zeroAttemptsV sampleReq { text := "fine" } "bad"
     rfl rfl rfl⟩

/-- Claim C4: whatever `max_attempts` is, if the validator accepts the first
response of the inner provider, the decorator makes exactly one inner call
and returns that response unchanged (chat and completion alike). -/
theorem validated_first_accept_single_call (v : ValidatedLLM)
    (msgs : List ChatMessage) (req : CompletionRequest) (s : String)
    (cresp : CompletionResponse)
    (hchat : v.inner.chat msgs = Except.ok s)
    (hacc : v.validator s = Except.ok ())
    (hcomp : v.inner.complete req = Except.ok cresp)
    (haccc : v.validator cresp.text = Except.ok ()) :
    v.chat msgs = (VOutcome.ok s, [msgs]) ∧
    v.complete req = (VOutcome.ok cresp, [req]) := by
  constructor
  · rw [ValidatedLLM.chat, chatLoop.eq_def]
    simp [hchat, hacc]
  · rw [ValidatedLLM.complete, completeLoop.eq_def]
    simp [hcomp, haccc]

theorem validated_first_accept_single_call_witness :
    acceptingV.chat [] = (VOutcome.ok "fine", [[]]) ∧
    acceptingV.complete sampleReq = (VOutcome.ok { text := "fine" }, [sampleReq]) :=
  validated_first_accept_single_call acceptingV [] sampleReq "fine" { text := "fine" }
    rfl rfl rfl rfl

/-- Claim C5: with `max_attempts = k ≥ 1` the decorated chat and complete
calls terminate after between 1 and k inner invocations and return either a
validator-accepted response or an error; the invocation trace is the only
repetition performed. -/
theorem validated_terminates_within_attempts (v : ValidatedLLM)
    (msgs : List ChatMessage) (req : CompletionRequest)
    (k : Nat) (hk : v.attempts = k) (hk1 : 1 ≤ k) :
    (1 ≤ (v.chat msgs).2.length ∧ (v.chat msgs).2.length ≤ k ∧
      ((∃ s, (v.chat msgs).1 = VOutcome.ok s ∧ v.validator s = Except.ok ()) ∨
       (∃ e, (v.chat msgs).1 = VOutcome.err e))) ∧
    (1 ≤ (v.complete req).2.length ∧ (v.complete req).2.length ≤ k ∧
      ((∃ s, (v.complete req).1 = VOutcome.ok s ∧ v.validator s.text = Except.ok ()) ∨
       (∃ e, (v.complete req).1 = VOutcome.err e))) := by
  obtain ⟨n, rfl⟩ : ∃ n, k = n + 1 := ⟨k - 1, (Nat.succ_pred_eq_of_pos hk1).symm⟩
  constructor
  · rw [ValidatedLLM.chat, hk]
    exact chatLoop_bounds v.inner.chat v.validator n msgs
  · rw [ValidatedLLM.complete, hk]
    exact completeLoop_bounds v.inner.complete v.validator n req

theorem validated_terminates_within_attempts_witness :
    (1 ≤ (rejectingV.chat []).2.length ∧ (rejectingV.chat []).2.length ≤ 2 ∧
      ((∃ s, (rejectingV.chat []).1 = VOutcome.ok s ∧
          rejectingV.validator s = Except.ok ()) ∨
       (∃ e, (rejectingV.chat []).1 = VOutcome.err e))) ∧
    (1 ≤ (rejectingV.complete sampleReq).2.length ∧
      (rejectingV.complete sampleReq).2.length ≤ 2 ∧
      ((∃ s, (rejectingV.complete sampleReq).1 = VOutcome.ok s ∧
          rejectingV.validator s.text = Except.ok ()) ∨
       (∃ e, (rejectingV.complete sampleReq).1 = VOutcome.err e))) :=
  validated_terminates_within_attempts rejectingV [] sampleReq 2 rfl (by decide)

/-- Claim C6: if the i-th provider's chat call fails, `evaluate_chat` returns
that failure having invoked exactly the first i+1 providers — later providers
are never invoked, and no result list (not even the earlier successes) is
returned. -/
theorem evaluator_failfast (sf : Option (String → Float))
    (pairs : List (Provider × String)) (bad : Provider) (post : List Provider)
    (msgs : List ChatMessage) (e : RllmError)
    (h : ∀ p ∈ pairs, p.1.chat msgs = Except.ok p.2)
    (hbad : bad.chat msgs = Except.error e) :
    (LLMEvaluator.mk (pairs.map Prod.fst ++ bad :: post) sf).evaluate_chat msgs
      = (Except.error e, pairs.length + 1) :=
  evalChatGo_failfast sf msgs e pairs bad post h hbad

theorem evaluator_failfast_witness :
    (LLMEvaluator.mk [sampleOk, sampleBad, sampleOkB] none).evaluate_chat []
      = (Except.error (RllmError.ProviderError "boom"), 2) :=
  evaluator_failfast none [(sampleOk, "fine")] sampleBad [sampleOkB] []
    (RllmError.ProviderError "boom")
    (fun p hp => by
      have hps := List.mem_singleton.mp hp
      subst hps
      rfl)
    rfl

/-- Claim C7: when every provider's chat call succeeds, `evaluate_chat`
returns one result per provider, in registration order, carrying each
provider's response; with no scoring function every score is `0.0`, and with
a scoring function each score is the function applied to the result's own
text.  No sorting or ranking happens. -/
theorem evaluator_all_succeed_results (pairs : List (Provider × String))
    (msgs : List ChatMessage) (f : String → Float)
    (h : ∀ p ∈ pairs, p.1.chat msgs = Except.ok p.2) :
    (LLMEvaluator.new (pairs.map Prod.fst)).evaluate_chat msgs
      = (Except.ok (pairs.map fun p => { text := p.2, score := 0.0 }), pairs.length) ∧
    ((LLMEvaluator.new (pairs.map Prod.fst)).scoring f).evaluate_chat msgs
      = (Except.ok (pairs.map fun p => { text := p.2, score := f p.2 }), pairs.length) :=
  ⟨evalChatGo_ok none msgs pairs h, evalChatGo_ok (some f) msgs pairs h⟩

theorem evaluator_all_succeed_results_witness :
    (LLMEvaluator.new [sampleOk, sampleOkB]).evaluate_chat []
      = (Except.ok [{ text := "fine", score := 0.0 }, { text := "fine2", score := 0.0 }], 2) ∧
    ((LLMEvaluator.new [sampleOk, sampleOkB]).scoring (fun _ => 1.5)).evaluate_chat []
      = (Except.ok [{ text := "fine", score := 1.5 }, { text := "fine2", score := 1.5 }], 2) :=
  evaluator_all_succeed_results [(sampleOk, "fine"), (sampleOkB, "fine2")] []
    (fun _ => 1.5)
    (fun p hp => by
      rcases List.mem_cons.mp hp with hps | hps
      · subst hps; rfl
      · have hps2 := List.mem_singleton.mp hps
        subst hps2
        rfl)

/-- Claim C8 counterexample: a run whose only provider fails at index 0 and a
run whose failing provider sits at index 1 return the *identical* error
value, so the error surfaced by `evaluate_chat` carries no annotation of the
failing provider's index. -/
theorem evaluator_error_not_annotated :
    ((LLMEvaluator.new [sampleBad]).evaluate_chat []).1
      = Except.error (RllmError.ProviderError "boom") ∧
    ((LLMEvaluator.new [sampleOk, sampleBad]).evaluate_chat []).1
      = Except.error (RllmError.ProviderError "boom") :=
  ⟨rfl, rfl⟩

/-- Claim C8 (amended): when a provider-level failure aborts an evaluation
run, the error returned to the caller is the failing provider's error
propagated unchanged, with no provider-index annotation. -/
theorem evaluator_error_propagated_unchanged (sf : Option (String → Float))
    (pairs : List (Provider × String)) (bad : Provider) (post : List Provider)
    (msgs : List ChatMessage) (e : RllmError)
    (h : ∀ p ∈ pairs, p.1.chat msgs = Except.ok p.2)
    (hbad : bad.chat msgs = Except.error e) :
    ((LLMEvaluator.mk (pairs.map Prod.fst ++ bad :: post) sf).evaluate_chat msgs).1
      = Except.error e := by
  have h2 : (LLMEvaluator.mk (pairs.map Prod.fst ++ bad :: post) sf).evaluate_chat msgs
      = (Except.error e, pairs.length + 1) :=
    evalChatGo_failfast sf msgs e pairs bad post h hbad
  rw [h2]

theorem evaluator_error_propagated_unchanged_witness :
    ((LLMEvaluator.mk [sampleBad, sampleOk] none).evaluate_chat []).1
      = Except.error (RllmError.ProviderError "boom") :=
  evaluator_error_propagated_unchanged none [] sampleBad [sampleOk] []
    (RllmError.ProviderError "boom") (fun p hp => absurd hp (List.not_mem_nil p)) rfl

/-- Claim C9 (spec-modelled registry): registering the same id twice makes
`build()` return a ConfigurationError — duplicate ids are rejected at build
time, and no registry value is produced (no last-write-wins resolution). -/
theorem registry_duplicate_id_rejected (b : LLMRegistryBuilder) (id : String)
    (p q : Provider) :
    ((b.register id p).register id q).build
      = Except.error ConfigurationError.duplicate_id := by
  have hnot : ¬ ((((b.register id p).register id q).entries.map Prod.fst).Nodup) := by
    simp [LLMRegistryBuilder.register, List.nodup_append]
  rw [LLMRegistryBuilder.build, if_neg hnot]

/-- Claim C10: the XAI backend's `complete` ignores the request entirely and
always succeeds with exactly the fixed placeholder text. -/
theorem xai_complete_fixed_text (x : XAI) (req : CompletionRequest) :
    x.complete req = Except.ok { text := "X.AI completion not implemented." } :=
  rfl

end Rllm
